import Mathlib

/-!
Verification of the token-based authentication and product-CRUD server of
`api-productos-jwt` against its natural-language specification.

The repository contains two JavaScript variants of the same Express server:

* `src/unnamed/part_000` — the fuller variant: `authenticateToken` (the
  Access Guard) checks the `Bearer` scheme and distinguishes a missing
  header (401), a malformed header (401) and an invalid/expired token
  (403); products are created from a `nextProductId` counter.
* `src/api_productos_con_auth_express_jwt.js` — the legacy variant:
  `verificarToken` answers 403 for every failure (including a missing
  header) and products take `id = productos.length + 1`.

The JWT signing and verification themselves live in the third-party
`jsonwebtoken` library, which is not part of the repository sources; the
Token Service below is therefore modelled from the specification's wire
format (three dot-separated segments; payload carrying subject, issuedAt,
expiresAt; a signature over the payload with the shared secret; expiry is
strict: a token is expired exactly when `now > expiresAt`).
-/

namespace ApiProductosJwt

/-! ### Injective coding of lists / strings / claims into `Nat`

Used as the (stand-in for base64url) serialization of token payloads:
a claim is coded as a `Nat` via iterated `Nat.pair` and the payload
segment is that number written in decimal digits, which keeps every
segment free of the `.` separator. -/

/-- Code a list of naturals as one natural via `Nat.pair`. -/
def encL : List Nat → Nat
  | [] => 0
  | x :: xs => Nat.pair x (encL xs) + 1

/-- Fuel-driven inverse of `encL`; `fuel ≥ encL l` suffices. -/
def decLAux : Nat → Nat → List Nat
  | 0, _ => []
  | _ + 1, 0 => []
  | f + 1, m + 1 => (Nat.unpair m).1 :: decLAux f (Nat.unpair m).2

/-- Decode a natural back into the list it codes. -/
def natToList (n : Nat) : List Nat := decLAux n n

theorem decLAux_encL : ∀ (l : List Nat) (fuel : Nat), encL l ≤ fuel →
    decLAux fuel (encL l) = l := by
  intro l
  induction l with
  | nil =>
    intro fuel _
    cases fuel <;> rfl
  | cons x xs ih =>
    intro fuel hle
    cases fuel with
    | zero => exact absurd hle (by simp [encL])
    | succ f =>
      have hpair : Nat.pair x (encL xs) ≤ f := Nat.succ_le_succ_iff.mp hle
      have hxs : encL xs ≤ f := le_trans (Nat.right_le_pair x (encL xs)) hpair
      simp [encL, decLAux, Nat.unpair_pair, ih f hxs]

theorem natToList_encL (l : List Nat) : natToList (encL l) = l :=
  decLAux_encL l (encL l) le_rfl

/-- Code a string as a natural (via its character codepoints). -/
def strN (s : String) : Nat := encL (s.data.map Char.toNat)

/-- Decode a natural back into a string. -/
def strOfN (n : Nat) : String := String.mk ((natToList n).map Char.ofNat)

theorem strOfN_strN (s : String) : strOfN (strN s) = s := by
  simp only [strOfN, strN, natToList_encL, List.map_map]
  have : s.data.map (Char.ofNat ∘ Char.toNat) = s.data := by
    simp [Function.comp_def]
  rw [this]

/-- Code an attribute list (string pairs) as a natural. -/
def attrsN (l : List (String × String)) : Nat :=
  encL (l.map fun p => Nat.pair (strN p.1) (strN p.2))

/-- Decode a natural back into an attribute list. -/
def attrsOfN (n : Nat) : List (String × String) :=
  (natToList n).map fun m => (strOfN (Nat.unpair m).1, strOfN (Nat.unpair m).2)

theorem attrsOfN_attrsN (l : List (String × String)) : attrsOfN (attrsN l) = l := by
  simp only [attrsOfN, attrsN, natToList_encL, List.map_map]
  have : (l.map fun p =>
      (strOfN (Nat.unpair (Nat.pair (strN p.1) (strN p.2))).1,
       strOfN (Nat.unpair (Nat.pair (strN p.1) (strN p.2))).2)) = l := by
    simp [Nat.unpair_pair, strOfN_strN]
  simpa [Function.comp_def] using this

/-- Credential Claim: facts asserted about a principal (spec section 3). -/
structure Claim where
  subject : String
  issuedAt : Nat
  expiresAt : Nat
  attributes : List (String × String)
deriving DecidableEq, Repr

/-- Deterministic serialization of a claim as a natural number. -/
def claimN (c : Claim) : Nat :=
  Nat.pair (strN c.subject)
    (Nat.pair c.issuedAt (Nat.pair c.expiresAt (attrsN c.attributes)))

/-- Total deserialization of a natural number into a claim. -/
def claimOfN (n : Nat) : Claim :=
  let a := Nat.unpair n
  let b := Nat.unpair a.2
  let d := Nat.unpair b.2
  ⟨strOfN a.1, b.1, d.1, attrsOfN d.2⟩

theorem claimOfN_claimN (c : Claim) : claimOfN (claimN c) = c := by
  cases c
  simp [claimOfN, claimN, Nat.unpair_pair, strOfN_strN, attrsOfN_attrsN]

/-! ### Decimal rendering of naturals (the dot-free segment text) -/

/-- The character for decimal digit `d`. -/
def digitChar (d : Nat) : Char := Char.ofNat (48 + d)

/-- Fuel-driven most-significant-first digit accumulation. -/
def toDigitsAux : Nat → Nat → List Char → List Char
  | 0, _, acc => acc
  | f + 1, n, acc =>
    if n = 0 then acc else toDigitsAux f (n / 10) (digitChar (n % 10) :: acc)

/-- Decimal digit string of a natural. -/
def natDigits (n : Nat) : List Char := if n = 0 then ['0'] else toDigitsAux n n []

/-- Read a decimal digit string back as a natural. -/
def digitsVal (l : List Char) : Nat := l.foldl (fun a c => a * 10 + (c.toNat - 48)) 0

theorem toDigitsAux_zero (f : Nat) (acc : List Char) : toDigitsAux f 0 acc = acc := by
  cases f <;> simp [toDigitsAux]

theorem toDigitsAux_acc (f : Nat) : ∀ (n : Nat) (acc : List Char),
    toDigitsAux f n acc = toDigitsAux f n [] ++ acc := by
  induction f with
  | zero => intro n acc; simp [toDigitsAux]
  | succ f ih =>
    intro n acc
    by_cases hn : n = 0
    · simp [hn, toDigitsAux_zero]
    · simp only [toDigitsAux, if_neg hn]
      rw [ih (n / 10) (digitChar (n % 10) :: acc), ih (n / 10) [digitChar (n % 10)]]
      simp

theorem toDigitsAux_fuel (f₁ : Nat) : ∀ (f₂ n : Nat) (acc : List Char),
    n ≤ f₁ → n ≤ f₂ → toDigitsAux f₁ n acc = toDigitsAux f₂ n acc := by
  induction f₁ with
  | zero =>
    intro f₂ n acc h1 _
    have : n = 0 := Nat.le_zero.mp h1
    subst this
    simp [toDigitsAux, toDigitsAux_zero]
  | succ f ih =>
    intro f₂ n acc h1 h2
    by_cases hn : n = 0
    · subst hn; simp [toDigitsAux_zero]
    · cases f₂ with
      | zero => exact absurd (Nat.le_zero.mp h2) hn
      | succ g =>
        have hlt : n / 10 < n := Nat.div_lt_self (Nat.pos_of_ne_zero hn) (by norm_num)
        have hf : n / 10 ≤ f := Nat.lt_succ_iff.mp (lt_of_lt_of_le hlt h1)
        have hg : n / 10 ≤ g := Nat.lt_succ_iff.mp (lt_of_lt_of_le hlt h2)
        simp only [toDigitsAux, if_neg hn]
        exact ih g (n / 10) (digitChar (n % 10) :: acc) hf hg

theorem toDigitsAux_step {f n : Nat} (hn : 0 < n) (hf : n ≤ f) :
    toDigitsAux f n [] = toDigitsAux f (n / 10) [] ++ [digitChar (n % 10)] := by
  cases f with
  | zero => exact absurd (Nat.le_zero.mp hf) (Nat.pos_iff_ne_zero.mp hn)
  | succ g =>
    have hn' : n ≠ 0 := Nat.pos_iff_ne_zero.mp hn
    have hlt : n / 10 < n := Nat.div_lt_self hn (by norm_num)
    have hgg : n / 10 ≤ g := Nat.lt_succ_iff.mp (lt_of_lt_of_le hlt hf)
    simp only [toDigitsAux, if_neg hn']
    rw [toDigitsAux_acc]
    exact congrArg (· ++ [digitChar (n % 10)])
      (toDigitsAux_fuel g (g + 1) (n / 10) [] hgg (le_trans hgg (Nat.le_succ g)))

theorem toNat_digitChar {d : Nat} (hd : d < 10) : (digitChar d).toNat = 48 + d := by
  interval_cases d <;> decide

theorem digitsVal_eq (n : Nat) : ∀ (f : Nat), n ≤ f → ∀ (a : Nat),
    List.foldl (fun a c => a * 10 + (c.toNat - 48)) a (toDigitsAux f n []) =
      a * 10 ^ (toDigitsAux f n []).length + n := by
  induction n using Nat.strong_induction_on with
  | _ n ih =>
    intro f hf a
    by_cases hn : n = 0
    · subst hn; simp [toDigitsAux_zero]
    · have hpos : 0 < n := Nat.pos_of_ne_zero hn
      have hlt : n / 10 < n := Nat.div_lt_self hpos (by norm_num)
      rw [toDigitsAux_step hpos hf]
      rw [List.foldl_append]
      have hmod : n % 10 < 10 := Nat.mod_lt _ (by norm_num)
      simp only [List.foldl_cons, List.foldl_nil, List.length_append, List.length_cons,
        List.length_nil]
      rw [ih (n / 10) hlt f (le_trans (le_of_lt hlt) hf) a]
      rw [toNat_digitChar hmod]
      have : 48 + n % 10 - 48 = n % 10 := by omega
      rw [this]
      rw [pow_succ]
      have hdm : n / 10 * 10 + n % 10 = n := by omega
      have hring : (a * 10 ^ (toDigitsAux f (n / 10) []).length + n / 10) * 10 + n % 10
          = a * (10 ^ (toDigitsAux f (n / 10) []).length * 10) + (n / 10 * 10 + n % 10) := by
        ring
      rw [hring, hdm]

theorem digitsVal_natDigits (n : Nat) : digitsVal (natDigits n) = n := by
  by_cases hn : n = 0
  · subst hn; decide
  · simp only [natDigits, if_neg hn, digitsVal]
    rw [digitsVal_eq n n le_rfl 0]
    simp

theorem mem_toDigitsAux (f : Nat) : ∀ (n : Nat) (acc : List Char) (c : Char),
    c ∈ toDigitsAux f n acc → c ∈ acc ∨ ∃ d, d < 10 ∧ c = digitChar d := by
  induction f with
  | zero => intro n acc c h; exact Or.inl h
  | succ f ih =>
    intro n acc c h
    by_cases hn : n = 0
    · subst hn; rw [toDigitsAux_zero] at h; exact Or.inl h
    · simp only [toDigitsAux, if_neg hn] at h
      rcases ih (n / 10) (digitChar (n % 10) :: acc) c h with hmem | hd
      · rcases List.mem_cons.mp hmem with heq | hmem'
        · exact Or.inr ⟨n % 10, Nat.mod_lt _ (by norm_num), heq⟩
        · exact Or.inl hmem'
      · exact Or.inr hd

theorem mem_natDigits {n : Nat} {c : Char} (h : c ∈ natDigits n) :
    ∃ d, d < 10 ∧ c = digitChar d := by
  by_cases hn : n = 0
  · subst hn
    have h0 : c = '0' := by simpa [natDigits] using h
    exact ⟨0, by norm_num, by rw [h0]; decide⟩
  · simp only [natDigits, if_neg hn] at h
    rcases mem_toDigitsAux n n [] c h with habs | hd
    · exact absurd habs (List.not_mem_nil c)
    · exact hd

theorem digitChar_ne_dot {d : Nat} (hd : d < 10) : digitChar d ≠ '.' := by
  interval_cases d <;> decide

theorem digitChar_ne_space {d : Nat} (hd : d < 10) : digitChar d ≠ ' ' := by
  interval_cases d <;> decide

theorem dot_not_mem_natDigits (n : Nat) : '.' ∉ natDigits n := by
  intro h
  rcases mem_natDigits h with ⟨d, hd, heq⟩
  exact digitChar_ne_dot hd heq.symm

theorem space_not_mem_natDigits (n : Nat) : ' ' ∉ natDigits n := by
  intro h
  rcases mem_natDigits h with ⟨d, hd, heq⟩
  exact digitChar_ne_space hd heq.symm

/-! ### Splitting a character list on a separator

Mirrors JavaScript `String.prototype.split(sep)` with a one-character
separator: empty fields are kept, so `"Bearer ".split(' ')` is
`["Bearer", ""]` and `"".split(' ')` is `[""]`. -/

/-- Split a character list at every occurrence of `sep` (fields kept, may be empty). -/
def splitCh (sep : Char) : List Char → List (List Char)
  | [] => [[]]
  | c :: cs =>
    if c = sep then [] :: splitCh sep cs
    else
      match splitCh sep cs with
      | [] => [[c]]
      | g :: gs => (c :: g) :: gs

theorem splitCh_ne_nil (sep : Char) : ∀ (l : List Char), splitCh sep l ≠ [] := by
  intro l
  induction l with
  | nil => simp [splitCh]
  | cons c cs ih =>
    by_cases hc : c = sep
    · simp [splitCh, hc]
    · simp only [splitCh, if_neg hc]
      cases hs : splitCh sep cs with
      | nil => simp
      | cons g gs => simp

theorem splitCh_no_sep {sep : Char} : ∀ {l : List Char}, sep ∉ l → splitCh sep l = [l] := by
  intro l
  induction l with
  | nil => intro _; rfl
  | cons c cs ih =>
    intro h
    have hc : c ≠ sep := fun he => h (he ▸ List.mem_cons_self c cs)
    have hcs : sep ∉ cs := fun hm => h (List.mem_cons_of_mem c hm)
    simp only [splitCh, if_neg hc, ih hcs]

theorem splitCh_append_sep (sep : Char) (a : List Char) : ∀ (r : List Char), sep ∉ a →
    splitCh sep (a ++ sep :: r) = a :: splitCh sep r := by
  induction a with
  | nil => intro r _; simp [splitCh]
  | cons c cs ih =>
    intro r h
    have hc : c ≠ sep := fun he => h (he ▸ List.mem_cons_self c cs)
    have hcs : sep ∉ cs := fun hm => h (List.mem_cons_of_mem c hm)
    simp only [List.cons_append, splitCh, List.append_eq, if_neg hc, ih r hcs]

/-! ### Token Service

Modelled from the spec: the actual JWT signing/verification is performed by
the third-party `jsonwebtoken` library (`jwt.sign` in `generateToken`,
`jwt.verify` in `authenticateToken`), whose code is not part of the
repository sources. Per the spec: a Signed Token is three dot-separated
segments (header, payload, signature), each free of `.`; the payload
deterministically serializes the Credential Claim; the signature is
computed over the payload with the Shared Secret and any alteration is
detectable as a mismatch; verification fails with `MalformedToken` /
`SignatureInvalid` / `Expired`, rejects on the signature before inspecting
claim contents, and a token is expired exactly when `now > expiresAt`
(equality is valid). The base64url segment encoding is modelled by the
injective decimal rendering of the `Nat` codes above, which likewise
yields `.`-free segments. -/

/-- Verification failures of the Token Service (spec section 4.1). -/
inductive VerifyError where
  | MalformedToken
  | SignatureInvalid
  | Expired
deriving DecidableEq, Repr

/-- Modelled from the spec: keyed signature over a serialized payload. -/
def macN (secret : String) (payloadN : Nat) : Nat := Nat.pair (strN secret) payloadN

/-- Signature segment for a payload code under a secret. -/
def signatureChars (secret : String) (payloadN : Nat) : List Char :=
  natDigits (macN secret payloadN)

/-- Fixed header segment (stands for the constant JWT algorithm header). -/
def headerChars : List Char := ['0']

/-- Modelled from the spec: serialize, sign and assemble a claim into a
three-segment Signed Token. -/
def encodeToken (secret : String) (c : Claim) : String :=
  String.mk (headerChars ++ '.' :: natDigits (claimN c) ++ '.' ::
    signatureChars secret (claimN c))

/-- Modelled from the spec: `issue(claim, ttl)` stamps `issuedAt = now`,
`expiresAt = now + ttl` and returns the signed token. -/
def issue (secret : String) (now ttl : Nat) (c : Claim) : String :=
  encodeToken secret { c with issuedAt := now, expiresAt := now + ttl }

/-- Modelled from the spec: `verify(token)` parses the three segments
(else `MalformedToken`), recomputes and compares the signature before
reading the claim (else `SignatureInvalid`), and rejects with `Expired`
exactly when `now > expiresAt`. -/
def verify (secret : String) (now : Nat) (token : String) : Except VerifyError Claim :=
  match splitCh '.' token.data with
  | [_, p, s] =>
    let payloadN := digitsVal p
    if s = signatureChars secret payloadN then
      let c := claimOfN payloadN
      if c.expiresAt < now then Except.error VerifyError.Expired
      else Except.ok c
    else Except.error VerifyError.SignatureInvalid
  | _ => Except.error VerifyError.MalformedToken

theorem splitCh_encodeToken (secret : String) (c : Claim) :
    splitCh '.' (encodeToken secret c).data =
      [headerChars, natDigits (claimN c), signatureChars secret (claimN c)] := by
  show splitCh '.' (headerChars ++ '.' :: (natDigits (claimN c) ++ '.' ::
    signatureChars secret (claimN c))) = _
  rw [splitCh_append_sep '.' headerChars _ (by decide)]
  rw [splitCh_append_sep '.' (natDigits (claimN c)) _ (dot_not_mem_natDigits _)]
  simp only [signatureChars]
  rw [splitCh_no_sep (dot_not_mem_natDigits _)]

theorem verify_encodeToken (secret : String) (now : Nat) (c : Claim) :
    verify secret now (encodeToken secret c) =
      if c.expiresAt < now then Except.error VerifyError.Expired else Except.ok c := by
  unfold verify
  rw [splitCh_encodeToken]
  simp [digitsVal_natDigits, claimOfN_claimN]

theorem data_mk (l : List Char) : (String.mk l).data = l := rfl

theorem verify_issue (secret : String) (now ttl : Nat) (c : Claim) :
    verify secret now (issue secret now ttl c) =
      Except.ok { c with issuedAt := now, expiresAt := now + ttl } := by
  obtain ⟨su, ia, ea, ats⟩ := c
  unfold issue
  rw [verify_encodeToken]
  exact if_neg (by show ¬ (now + ttl < now); omega)

theorem space_not_mem_encodeToken (secret : String) (c : Claim) :
    ' ' ∉ (encodeToken secret c).data := by
  intro hm
  simp only [encodeToken, data_mk] at hm
  rcases List.mem_append.mp hm with h12 | h5
  · rcases List.mem_append.mp h12 with h1 | h2
    · exact (by decide : ' ' ∉ headerChars) h1
    · rcases List.mem_cons.mp h2 with he | h3
      · exact (by decide : ¬ (' ' = '.')) he
      · exact space_not_mem_natDigits _ h3
  · rcases List.mem_cons.mp h5 with he | h6
    · exact (by decide : ¬ (' ' = '.')) he
    · exact space_not_mem_natDigits _ h6

/-! ### Access Guard (`authenticateToken`, `src/unnamed/part_000` lines 72-85)

```js
function authenticateToken(req, res, next) {
  const authHeader = req.headers['authorization'];
  if (!authHeader) return res.status(401).json({ error: 'No se encontró el header Authorization' });
  const parts = authHeader.split(' ');
  if (parts.length !== 2 || parts[0] !== 'Bearer') return res.status(401).json({ error: 'Formato de Authorization: Bearer <token>' });
  const token = parts[1];
  jwt.verify(token, JWT_SECRET, (err, user) => {
    if (err) return res.status(403).json({ error: 'Token inválido o expirado' });
    req.user = user;
    next();
  });
}
```
The three rejection branches are labelled with the spec's error taxonomy:
absent/empty header (`!authHeader`) is `MissingCredential`, a header not of
the two-part `Bearer` shape is `MalformedScheme`, and Token Service errors
propagate unchanged. -/

/-- Authorization failures of the Access Guard (spec section 4.2). -/
inductive AuthError where
  | MissingCredential
  | MalformedScheme
  | tokenError (e : VerifyError)
deriving DecidableEq, Repr

/-- `authenticateToken` as a function of the `Authorization` header value
(`none` when the header is absent), the shared secret and the clock. -/
def authorize (secret : String) (now : Nat) (header : Option String) :
    Except AuthError Claim :=
  match header with
  | none => Except.error AuthError.MissingCredential
  | some h =>
    if h.data = [] then Except.error AuthError.MissingCredential
    else
      match splitCh ' ' h.data with
      | [p0, p1] =>
        if p0 = "Bearer".data then
          match verify secret now (String.mk p1) with
          | Except.ok c => Except.ok c
          | Except.error e => Except.error (AuthError.tokenError e)
        else Except.error AuthError.MalformedScheme
      | _ => Except.error AuthError.MalformedScheme

/-- HTTP status `authenticateToken` answers for each failure kind
(source lines 74, 77, 81). -/
def authStatus : AuthError → Nat
  | AuthError.MissingCredential => 401
  | AuthError.MalformedScheme => 401
  | AuthError.tokenError _ => 403

/-- Error message `authenticateToken` answers for each failure kind. -/
def authMessage : AuthError → String
  | AuthError.MissingCredential => "No se encontró el header Authorization"
  | AuthError.MalformedScheme => "Formato de Authorization: Bearer <token>"
  | AuthError.tokenError _ => "Token inválido o expirado"

/-! ### CRUD shell (`src/unnamed/part_000`)

Product values carry `Option` fields because a JavaScript destructuring of
a request body yields `undefined` for absent fields and the PUT handler
writes those values into the stored object unchanged. JavaScript numbers
are modelled as `ℚ` (no arithmetic is ever performed on them; they are
only copied and compared). -/

/-- An element of the in-memory `products` list. -/
structure Product where
  id : Nat
  name : Option String
  price : Option ℚ
  stock : Option ℚ
deriving DecidableEq, Repr

/-- The `name`/`price`/`stock` fields destructured from a request body
(`none` = absent/`undefined`). -/
structure ReqBody where
  name : Option String
  price : Option ℚ
  stock : Option ℚ
deriving DecidableEq, Repr

/-- Whole server state: the `products` list and the id counter
(lines 29-33). -/
structure ServerState where
  products : List Product
  nextProductId : Nat
deriving DecidableEq, Repr

/-- A response: HTTP status paired with the JSON body shape. -/
inductive RespBody where
  | product (p : Product)
  | productList (ps : List Product)
  | errorMsg (m : String)
  | token (t : String)
  | deleted (p : Product)
  | empty
deriving DecidableEq, Repr

/-- A route's answer. -/
abbrev Resp := Nat × RespBody

/-- Hardcoded credential record (line 24-26). -/
structure User where
  id : Nat
  username : String
  password : String
  role : String
deriving DecidableEq, Repr

/-- The `USERS` list (lines 24-26). -/
def USERS : List User := [⟨1, "admin", "password123", "admin"⟩]

/-- `JWT_SECRET` default (line 20). -/
def JWT_SECRET : String := "mi_secreto_super_seguro_123"

/-- `TOKEN_EXPIRATION = '1h'` (line 21), in seconds. -/
def tokenExpirationSecs : Nat := 3600

/-- `generateToken` (lines 36-39): sign a payload with the user's data,
expiring after `TOKEN_EXPIRATION`. The payload's `username` is the
claim's subject; `id` and `role` ride along as attributes. -/
def generateToken (now : Nat) (u : User) : String :=
  issue JWT_SECRET now tokenExpirationSecs
    ⟨u.username, 0, 0, [("id", toString u.id), ("role", u.role)]⟩

/-- `POST /auth` (lines 63-69): look the pair up in `USERS`; on a match
answer 200 with the freshly signed token, else 401. -/
def authRoute (now : Nat) (username password : Option String) : Resp :=
  match USERS.find? fun u =>
      username == some u.username && password == some u.password with
  | some u => (200, RespBody.token (generateToken now u))
  | none => (401, RespBody.errorMsg "Credenciales inválidas")

/-- The body validation of `POST /products` (line 135):
`!name || price == null || stock == null` rejects with 400. -/
def validCreate (b : ReqBody) : Bool :=
  (match b.name with
   | none => false
   | some s => s ≠ "") &&
  b.price.isSome && b.stock.isSome

/-- `POST /products` (lines 133-140): validate, then push
`{ id: nextProductId++, name, price, stock }`. -/
def createProduct (b : ReqBody) (s : ServerState) : Resp × ServerState :=
  if validCreate b then
    let newProduct : Product := ⟨s.nextProductId, b.name, b.price, b.stock⟩
    ((201, RespBody.product newProduct),
      ⟨s.products ++ [newProduct], s.nextProductId + 1⟩)
  else ((400, RespBody.errorMsg "name, price y stock son requeridos"), s)

/-- `GET /products` (lines 98-100): the full list, no credential read. -/
def getProducts (s : ServerState) : Resp := (200, RespBody.productList s.products)

/-- `GET /products/:id` (lines 117-122). -/
def getProduct (pid : Nat) (s : ServerState) : Resp :=
  match s.products.find? fun p => p.id == pid with
  | some p => (200, RespBody.product p)
  | none => (404, RespBody.errorMsg "Producto no encontrado")

/-- `findIndex` + in-place update of `PUT /products/:id` (lines 151-160):
replace the first product whose id matches by
`{ ...products[pIndex], name, price, stock }` — the spread keeps `id`,
then `name`, `price`, `stock` are overwritten with the body's values
(absent body fields write `undefined`). Returns the updated product and
the new list, or `none` when no id matches. -/
def updateFirst (pid : Nat) (b : ReqBody) : List Product → Option (Product × List Product)
  | [] => none
  | p :: ps =>
    if p.id = pid then
      let u : Product := ⟨p.id, b.name, b.price, b.stock⟩
      some (u, u :: ps)
    else
      match updateFirst pid b ps with
      | none => none
      | some (u, rest) => some (u, p :: rest)

/-- `PUT /products/:id` (lines 151-160). -/
def updateProduct (pid : Nat) (b : ReqBody) (s : ServerState) : Resp × ServerState :=
  match updateFirst pid b s.products with
  | none => ((404, RespBody.errorMsg "Producto no encontrado"), s)
  | some (u, rest) => ((200, RespBody.product u), ⟨rest, s.nextProductId⟩)

/-- `findIndex` + `splice(pIndex, 1)` of `DELETE /products/:id`
(lines 171-177): remove the first product whose id matches, returning it
and the remaining list. -/
def removeFirst (pid : Nat) : List Product → Option (Product × List Product)
  | [] => none
  | p :: ps =>
    if p.id = pid then some (p, ps)
    else
      match removeFirst pid ps with
      | none => none
      | some (r, rest) => some (r, p :: rest)

/-- `DELETE /products/:id` (lines 171-177). -/
def deleteProduct (pid : Nat) (s : ServerState) : Resp × ServerState :=
  match removeFirst pid s.products with
  | none => ((404, RespBody.errorMsg "Producto no encontrado"), s)
  | some (r, rest) => ((200, RespBody.deleted r), ⟨rest, s.nextProductId⟩)

/-- The routes of the server. -/
inductive Request where
  | auth (username password : Option String)
  | listProducts
  | getOne (pid : Nat)
  | create (b : ReqBody)
  | update (pid : Nat) (b : ReqBody)
  | remove (pid : Nat)
deriving DecidableEq, Repr

/-- Route dispatch: the three mutating routes run `authenticateToken`
first (middleware position in lines 133, 151, 171) and only execute their
operation when it admits the request; its rejection is the response. -/
def handleRequest (now : Nat) (header : Option String) (req : Request)
    (s : ServerState) : Resp × ServerState :=
  match req with
  | Request.auth u p => (authRoute now u p, s)
  | Request.listProducts => (getProducts s, s)
  | Request.getOne pid => (getProduct pid s, s)
  | Request.create b =>
    match authorize JWT_SECRET now header with
    | Except.error e => ((authStatus e, RespBody.errorMsg (authMessage e)), s)
    | Except.ok _ => createProduct b s
  | Request.update pid b =>
    match authorize JWT_SECRET now header with
    | Except.error e => ((authStatus e, RespBody.errorMsg (authMessage e)), s)
    | Except.ok _ => updateProduct pid b s
  | Request.remove pid =>
    match authorize JWT_SECRET now header with
    | Except.error e => ((authStatus e, RespBody.errorMsg (authMessage e)), s)
    | Except.ok _ => deleteProduct pid s

/-- The state-changing operations, for reachability arguments. -/
inductive Op where
  | create (b : ReqBody)
  | update (pid : Nat) (b : ReqBody)
  | remove (pid : Nat)
deriving DecidableEq, Repr

/-- State transition of one operation (its response discarded). -/
def applyOp (s : ServerState) : Op → ServerState
  | Op.create b => (createProduct b s).2
  | Op.update pid b => (updateProduct pid b s).2
  | Op.remove pid => (deleteProduct pid s).2

/-- The startup state (lines 29-33). -/
def initState : ServerState :=
  ⟨[⟨1, some "Zapatillas", some (799/10 : ℚ), some 10⟩,
    ⟨2, some "Camiseta", some (199/10 : ℚ), some 50⟩], 3⟩

/-- State after a sequence of mutating operations from startup. -/
def run (ops : List Op) : ServerState := ops.foldl applyOp initState

/-! ### Legacy variant (`src/api_productos_con_auth_express_jwt.js`)

```js
function verificarToken(req, res, next) {
  const authHeader = req.headers["authorization"];
  if (!authHeader) return res.sendStatus(403);
  const token = authHeader.split(" ")[1];
  jwt.verify(token, SECRET_KEY, (err, user) => {
    if (err) return res.sendStatus(403);
    req.user = user;
    next();
  });
}
```
Every failure — including an absent header — answers a bare 403; there is
no scheme check. When the header contains no space, `split(" ")[1]` is
`undefined` and `jwt.verify` fails, again a 403. -/

namespace Legacy

/-- `SECRET_KEY` of the legacy variant (line 10). -/
def SECRET_KEY : String := "miclaveultrasecreta"

/-- Outcome of the `verificarToken` middleware, labelled by which source
branch rejected: line 52 (`!authHeader`, bare 403) or line 55 (the
`jwt.verify` callback error, bare 403, carrying the Token Service's
error kind). -/
inductive GuardResult where
  | proceed (user : Claim)
  | rejectMissing
  | rejectToken (e : VerifyError)
deriving DecidableEq, Repr

/-- `verificarToken` (lines 50-59): no scheme check — whatever stands
after the first space is handed to token verification. When the header
contains no space at all, `split(" ")[1]` is `undefined` and `jwt.verify`
fails with a malformed-token error. -/
def verificarToken (now : Nat) (header : Option String) : GuardResult :=
  match header with
  | none => GuardResult.rejectMissing
  | some h =>
    if h.data = [] then GuardResult.rejectMissing
    else
      match splitCh ' ' h.data with
      | _ :: t :: _ =>
        match verify SECRET_KEY now (String.mk t) with
        | Except.ok u => GuardResult.proceed u
        | Except.error e => GuardResult.rejectToken e
      | _ => GuardResult.rejectToken VerifyError.MalformedToken

/-- Both rejection sites of `verificarToken` answer `res.sendStatus(403)`;
`none` means the middleware calls `next()`. -/
def guardResponse : GuardResult → Option Resp
  | GuardResult.proceed _ => none
  | GuardResult.rejectMissing => some (403, RespBody.empty)
  | GuardResult.rejectToken _ => some (403, RespBody.empty)

/-- `POST /productos` (lines 99-104): behind `verificarToken`; pushes
`{ id: productos.length + 1, name, price, stock }` with no validation and
answers 201. -/
def crearProducto (now : Nat) (header : Option String) (b : ReqBody)
    (productos : List Product) : Resp × List Product :=
  match guardResponse (verificarToken now header) with
  | some r => (r, productos)
  | none =>
    let nuevo : Product := ⟨productos.length + 1, b.name, b.price, b.stock⟩
    ((201, RespBody.product nuevo), productos ++ [nuevo])

/-- `PUT /productos/:id` (lines 153-162): behind `verificarToken`; the
first product with the id gets `name`, `price`, `stock` overwritten with
the body's values and is answered 200, else 404. -/
def actualizarProducto (now : Nat) (header : Option String) (pid : Nat)
    (b : ReqBody) (productos : List Product) : Resp × List Product :=
  match guardResponse (verificarToken now header) with
  | some r => (r, productos)
  | none =>
    match updateFirst pid b productos with
    | none => ((404, RespBody.errorMsg "Producto no encontrado"), productos)
    | some (u, rest) => ((200, RespBody.product u), rest)

/-- `DELETE /productos/:id` (lines 164-168): behind `verificarToken`;
filters the list by id and answers 200. -/
def eliminarProducto (now : Nat) (header : Option String) (pid : Nat)
    (productos : List Product) : Resp × List Product :=
  match guardResponse (verificarToken now header) with
  | some r => (r, productos)
  | none =>
    ((200, RespBody.errorMsg "Producto eliminado"),
      productos.filter fun p => p.id != pid)

end Legacy

/-! ### Invariant infrastructure for the id counter -/

/-- The ids currently in the product list. -/
def idsOf (s : ServerState) : List Nat := s.products.map Product.id

/-- All ids pairwise distinct and strictly below the counter. -/
def StateInv (s : ServerState) : Prop :=
  (idsOf s).Nodup ∧ ∀ p ∈ s.products, p.id < s.nextProductId

theorem updateFirst_eq (pid : Nat) (b : ReqBody) : ∀ (ps rest : List Product)
    (u : Product), updateFirst pid b ps = some (u, rest) →
    rest.map Product.id = ps.map Product.id ∧
      u.name = b.name ∧ u.price = b.price ∧ u.stock = b.stock := by
  intro ps
  induction ps with
  | nil => intro rest u h; simp [updateFirst] at h
  | cons p ps ih =>
    intro rest u h
    by_cases hp : p.id = pid
    · simp only [updateFirst, if_pos hp, Option.some.injEq, Prod.mk.injEq] at h
      obtain ⟨hu, hrest⟩ := h
      subst hu
      subst hrest
      simp
    · simp only [updateFirst, if_neg hp] at h
      cases hm : updateFirst pid b ps with
      | none => rw [hm] at h; exact absurd h (by simp)
      | some pr =>
        obtain ⟨u2, rest2⟩ := pr
        rw [hm] at h
        simp only [Option.some.injEq, Prod.mk.injEq] at h
        obtain ⟨hu, hrest⟩ := h
        obtain ⟨hids, hflds⟩ := ih rest2 u2 hm
        subst hu
        rw [← hrest]
        exact ⟨by simp [hids], hflds⟩

theorem removeFirst_sublist (pid : Nat) : ∀ (ps rest : List Product) (r : Product),
    removeFirst pid ps = some (r, rest) → rest.Sublist ps := by
  intro ps
  induction ps with
  | nil => intro rest r h; simp [removeFirst] at h
  | cons p ps ih =>
    intro rest r h
    by_cases hp : p.id = pid
    · simp only [removeFirst, if_pos hp, Option.some.injEq, Prod.mk.injEq] at h
      rw [← h.2]
      exact List.sublist_cons_self p ps
    · simp only [removeFirst, if_neg hp] at h
      cases hm : removeFirst pid ps with
      | none => rw [hm] at h; exact absurd h (by simp)
      | some pr =>
        obtain ⟨r2, rest2⟩ := pr
        rw [hm] at h
        simp only [Option.some.injEq, Prod.mk.injEq] at h
        obtain ⟨hr, hrest⟩ := h
        rw [← hrest]
        exact (ih rest2 r2 hm).cons₂ p

theorem stateInv_applyOp {s : ServerState} (h : StateInv s) (op : Op) :
    StateInv (applyOp s op) := by
  obtain ⟨hnd, hbd⟩ := h
  cases op with
  | create b =>
    simp only [applyOp, createProduct]
    by_cases hv : validCreate b
    · simp only [if_pos hv]
      constructor
      · simp only [idsOf, List.map_append, List.map_cons, List.map_nil]
        rw [List.nodup_append]
        refine ⟨hnd, List.nodup_singleton _, ?_⟩
        intro a ha hb
        rcases List.mem_map.mp ha with ⟨q, hq, hqa⟩
        have : a = s.nextProductId := List.mem_singleton.mp hb
        exact absurd (this ▸ hqa ▸ hbd q hq) (lt_irrefl _)
      · intro p hp
        rcases List.mem_append.mp hp with hold | hnew
        · exact lt_trans (hbd p hold) (Nat.lt_succ_self _)
        · rw [List.mem_singleton.mp hnew]
          exact Nat.lt_succ_self _
    · simp only [if_neg hv]
      exact ⟨hnd, hbd⟩
  | update pid b =>
    simp only [applyOp, updateProduct]
    cases hm : updateFirst pid b s.products with
    | none => exact ⟨hnd, hbd⟩
    | some pr =>
      obtain ⟨u, rest⟩ := pr
      obtain ⟨hids, -⟩ := updateFirst_eq pid b s.products rest u hm
      constructor
      · show (rest.map Product.id).Nodup
        rw [hids]
        exact hnd
      · intro p hp
        have : p.id ∈ rest.map Product.id := List.mem_map_of_mem Product.id hp
        rw [hids] at this
        rcases List.mem_map.mp this with ⟨q, hq, hqe⟩
        exact hqe ▸ hbd q hq
  | remove pid =>
    simp only [applyOp, deleteProduct]
    cases hm : removeFirst pid s.products with
    | none => exact ⟨hnd, hbd⟩
    | some pr =>
      obtain ⟨r, rest⟩ := pr
      have hsub := removeFirst_sublist pid s.products rest r hm
      constructor
      · exact List.Nodup.sublist (hsub.map Product.id) hnd
      · intro p hp
        exact hbd p (hsub.subset hp)

theorem stateInv_run (ops : List Op) : StateInv (run ops) := by
  have hinit : StateInv initState := by
    constructor
    · decide
    · intro p hp
      simp only [initState, List.mem_cons, List.not_mem_nil, or_false] at hp
      rcases hp with rfl | rfl <;> simp [initState]
  show StateInv (ops.foldl applyOp initState)
  have : ∀ (l : List Op) (s : ServerState), StateInv s → StateInv (l.foldl applyOp s) := by
    intro l
    induction l with
    | nil => intro s hs; exact hs
    | cons op rest ih => intro s hs; exact ih _ (stateInv_applyOp hs op)
  exact this ops initState hinit

/-! ### The claims -/

/-- C1: for every valid credential claim C (one whose `issuedAt` is the
issuance time and whose `expiresAt` is `issuedAt + t`) and every TTL
t > 0, verifying the token produced by issuing C with TTL t, with
verification running at the issuance time, succeeds and returns a claim
equal to C. -/
theorem c1_token_roundtrip (secret : String) (now ttl : Nat) (c : Claim)
    (httl : 0 < ttl) (hissued : c.issuedAt = now)
    (hexpiry : c.expiresAt = now + ttl) :
    verify secret now (issue secret now ttl c) = Except.ok c := by
  have hc : { c with issuedAt := now, expiresAt := now + ttl } = c := by
    cases c
    simp_all
  unfold issue
  rw [hc, verify_encodeToken, if_neg (by omega)]

/-- C1 witness: round trip at a concrete claim, secret and TTL. -/
theorem c1_witness :
    0 < 60 ∧ verify "s" 5 (issue "s" 5 60 ⟨"admin", 5, 65, []⟩) =
      Except.ok ⟨"admin", 5, 65, []⟩ :=
  ⟨by decide, c1_token_roundtrip "s" 5 60 ⟨"admin", 5, 65, []⟩ (by decide) rfl rfl⟩

/-- C2: a token issued at `now` with TTL `ttl` verifies as `Expired` at
every time strictly beyond `now + ttl`, and still verifies successfully at
exactly `now + ttl`: the expiry boundary is inclusive. -/
theorem c2_expiry_boundary (secret : String) (now ttl eps : Nat) (c : Claim)
    (heps : 0 < eps) :
    verify secret (now + ttl + eps) (issue secret now ttl c) =
        Except.error VerifyError.Expired ∧
      verify secret (now + ttl) (issue secret now ttl c) =
        Except.ok { c with issuedAt := now, expiresAt := now + ttl } := by
  obtain ⟨su, ia, ea, ats⟩ := c
  unfold issue
  constructor
  · rw [verify_encodeToken]
    exact if_pos (by show now + ttl < now + ttl + eps; omega)
  · rw [verify_encodeToken]
    exact if_neg (by show ¬ (now + ttl < now + ttl); omega)

/-- C2 witness: expiry at the boundary and one tick past it, concretely. -/
theorem c2_witness :
    verify "s" 61 (issue "s" 0 60 ⟨"a", 0, 0, []⟩) =
        Except.error VerifyError.Expired ∧
      verify "s" 60 (issue "s" 0 60 ⟨"a", 0, 0, []⟩) =
        Except.ok ⟨"a", 0, 60, []⟩ :=
  c2_expiry_boundary "s" 0 60 1 ⟨"a", 0, 0, []⟩ (by decide)

/-- C5: the header `"Bearer "` — scheme present, token empty — is rejected
with `MalformedToken` (the empty token has the wrong segment count), not
with `SignatureInvalid`. -/
theorem c5_empty_token_malformed (secret : String) (now : Nat) :
    authorize secret now (some "Bearer ") =
        Except.error (AuthError.tokenError VerifyError.MalformedToken) ∧
      authorize secret now (some "Bearer ") ≠
        Except.error (AuthError.tokenError VerifyError.SignatureInvalid) := by
  refine ⟨rfl, fun hcontra => ?_⟩
  rw [show authorize secret now (some "Bearer ") =
    Except.error (AuthError.tokenError VerifyError.MalformedToken) from rfl] at hcontra
  exact VerifyError.noConfusion
    (AuthError.tokenError.inj (Except.error.inj hcontra))

/-- C10: `GET /products` reads no credential: for any two requests against
the same state — any Authorization headers, any clocks — the response is
identical, namely 200 with the full product list, and the state is
untouched. -/
theorem c10_list_no_credential (now₁ now₂ : Nat) (h₁ h₂ : Option String)
    (s : ServerState) :
    handleRequest now₁ h₁ Request.listProducts s =
        handleRequest now₂ h₂ Request.listProducts s ∧
      handleRequest now₁ h₁ Request.listProducts s =
        ((200, RespBody.productList s.products), s) :=
  ⟨rfl, rfl⟩

/-- C3 counterexample: in the `verificarToken` variant
(`src/api_productos_con_auth_express_jwt.js` lines 50-59) the header
`Basic abc` is not rejected by any scheme check — there is none — but
reaches token verification of `abc` and fails with a propagated
malformed-token error, not with `MalformedScheme` (and not through the
missing-header branch either). -/
theorem c3_counterexample :
    Legacy.verificarToken 0 (some "Basic abc") =
        Legacy.GuardResult.rejectToken VerifyError.MalformedToken ∧
      (Legacy.GuardResult.rejectToken VerifyError.MalformedToken =
        Legacy.GuardResult.rejectMissing → False) :=
  ⟨rfl, by decide⟩

/-- C3 (amended): in the `authenticateToken` variant, `authorize` fails
with `MissingCredential` for an absent or empty Authorization header;
fails with `MalformedScheme` for any present header that does not split
into exactly two space-separated parts or whose first part is not the
case-sensitive literal `Bearer` (e.g. `Basic abc`); and succeeds,
returning the verified claim, for `Bearer ` followed by any token the
Token Service accepts. In the `verificarToken` variant only an absent or
empty header is separately detected (no scheme check): whatever stands
after the first space is handed to token verification, so `Basic abc`
fails as a propagated malformed-token error, not as `MalformedScheme`. -/
theorem c3_authorize_cases (secret : String) (now : Nat) :
    authorize secret now none = Except.error AuthError.MissingCredential ∧
      authorize secret now (some "") = Except.error AuthError.MissingCredential ∧
      authorize secret now (some "Basic abc") =
        Except.error AuthError.MalformedScheme ∧
      (∀ h : String, h.data ≠ [] →
        (match splitCh ' ' h.data with
         | [p0, _] => p0 ≠ "Bearer".data
         | _ => True) →
        authorize secret now (some h) = Except.error AuthError.MalformedScheme) ∧
      (∀ (tok : String) (c : Claim), ' ' ∉ tok.data →
        verify secret now tok = Except.ok c →
        authorize secret now (some ("Bearer " ++ tok)) = Except.ok c) ∧
      Legacy.verificarToken now none = Legacy.GuardResult.rejectMissing ∧
      (∀ (h : String) (p0 p1 : List Char) (rest : List (List Char)),
        h.data ≠ [] → splitCh ' ' h.data = p0 :: p1 :: rest →
        Legacy.verificarToken now (some h) =
          (match verify Legacy.SECRET_KEY now (String.mk p1) with
           | Except.ok u => Legacy.GuardResult.proceed u
           | Except.error e => Legacy.GuardResult.rejectToken e)) ∧
      Legacy.verificarToken now (some "Basic abc") =
        Legacy.GuardResult.rejectToken VerifyError.MalformedToken := by
  refine ⟨rfl, rfl, rfl, ?_, ?_, rfl, ?_, rfl⟩
  · intro h hne hmal
    simp only [authorize]
    rw [if_neg hne]
    cases hs : splitCh ' ' h.data with
    | nil => exact absurd hs (splitCh_ne_nil ' ' h.data)
    | cons p0 rest =>
      cases rest with
      | nil => rfl
      | cons p1 rest2 =>
        cases rest2 with
        | nil =>
          rw [hs] at hmal
          have hne0 : p0 ≠ "Bearer".data := hmal
          exact if_neg hne0
        | cons p2 rest3 => rfl
  · intro tok c hsp hver
    simp only [authorize]
    have hdata : ("Bearer " ++ tok).data = "Bearer".data ++ ' ' :: tok.data := rfl
    rw [hdata, if_neg (by simp)]
    rw [splitCh_append_sep ' ' "Bearer".data tok.data (by decide),
      splitCh_no_sep hsp]
    have hver2 : verify secret now (String.mk tok.data) = Except.ok c := hver
    simp [hver2]
  · intro h p0 p1 rest hne hs
    simp only [Legacy.verificarToken]
    rw [if_neg hne, hs]

/-- C3 witness: the absent, empty, wrongly-schemed, one-part and
valid-`Bearer` headers for the `authenticateToken` guard, and the absent
and `Basic abc` headers for the `verificarToken` guard, at concrete
inputs. -/
theorem c3_witness :
    authorize "s" 5 none = Except.error AuthError.MissingCredential ∧
      authorize "s" 5 (some "") = Except.error AuthError.MissingCredential ∧
      authorize "s" 5 (some "Basic abc") =
        Except.error AuthError.MalformedScheme ∧
      authorize "s" 5 (some "Bearer") = Except.error AuthError.MalformedScheme ∧
      authorize "s" 5 (some ("Bearer " ++ issue "s" 5 60 ⟨"a", 5, 65, []⟩)) =
        Except.ok ⟨"a", 5, 65, []⟩ ∧
      Legacy.verificarToken 5 none = Legacy.GuardResult.rejectMissing ∧
      Legacy.verificarToken 5 (some "Basic abc") =
        Legacy.GuardResult.rejectToken VerifyError.MalformedToken :=
  ⟨(c3_authorize_cases "s" 5).1,
   (c3_authorize_cases "s" 5).2.1,
   (c3_authorize_cases "s" 5).2.2.1,
   (c3_authorize_cases "s" 5).2.2.2.1 "Bearer" (by decide) (by trivial),
   (c3_authorize_cases "s" 5).2.2.2.2.1 (issue "s" 5 60 ⟨"a", 5, 65, []⟩)
     ⟨"a", 5, 65, []⟩
     (space_not_mem_encodeToken "s" ⟨"a", 5, 65, []⟩)
     (verify_issue "s" 5 60 ⟨"a", 5, 65, []⟩),
   (c3_authorize_cases "s" 5).2.2.2.2.2.1,
   (c3_authorize_cases "s" 5).2.2.2.2.2.2.1 "Basic abc" "Basic".data
     "abc".data [] (by decide) rfl⟩

/-- C6: the login route answers 200 with a JSON `token` field holding the
freshly issued signed token exactly when the supplied (subject, proof)
pair passes the principal check, and 401 with an error payload
otherwise. -/
theorem c6_auth_route (now : Nat) (username password : Option String) :
    (username = some "admin" ∧ password = some "password123" →
      authRoute now username password =
        (200, RespBody.token (generateToken now ⟨1, "admin", "password123", "admin"⟩))) ∧
    (¬(username = some "admin" ∧ password = some "password123") →
      authRoute now username password =
        (401, RespBody.errorMsg "Credenciales inválidas")) := by
  by_cases hu : username = some "admin" <;>
    by_cases hp : password = some "password123"
  · subst hu
    subst hp
    exact ⟨fun _ => rfl, fun hn => absurd ⟨rfl, rfl⟩ hn⟩
  · refine ⟨fun hb => absurd hb.2 hp, fun _ => ?_⟩
    subst hu
    have hbp : (password == some "password123") = false := beq_eq_false_iff_ne.mpr hp
    simp [authRoute, USERS, List.find?, hbp]
  · refine ⟨fun hb => absurd hb.1 hu, fun _ => ?_⟩
    have hbu : (username == some "admin") = false := beq_eq_false_iff_ne.mpr hu
    simp [authRoute, USERS, List.find?, hbu]
  · refine ⟨fun hb => absurd hb.1 hu, fun _ => ?_⟩
    have hbu : (username == some "admin") = false := beq_eq_false_iff_ne.mpr hu
    simp [authRoute, USERS, List.find?, hbu]

/-- C6 witness: a matching and a mismatching login, concretely. -/
theorem c6_witness :
    authRoute 0 (some "admin") (some "password123") =
        (200, RespBody.token (generateToken 0 ⟨1, "admin", "password123", "admin"⟩)) ∧
      authRoute 0 (some "admin") (some "wrong") =
        (401, RespBody.errorMsg "Credenciales inválidas") :=
  ⟨(c6_auth_route 0 (some "admin") (some "password123")).1 ⟨rfl, rfl⟩,
   (c6_auth_route 0 (some "admin") (some "wrong")).2 (by decide)⟩

/-- C4 counterexample: in the `verificarToken` variant
(`src/api_productos_con_auth_express_jwt.js`), a request to the mutating
delete route with an absent Authorization header — a missing credential —
is answered with status 403, not 401 as the claim states. -/
theorem c4_counterexample :
    (Legacy.eliminarProducto 0 none 1 []).1.1 = 403 ∧
      ((403 : Nat) = 401 → False) :=
  ⟨rfl, by decide⟩

/-- C4 (amended): in the `authenticateToken` variant every mutating route
(create, update, delete) runs the guard before the operation — on any
failure the response is the guard's rejection and the state is untouched —
with status 401 for a missing credential or malformed header/scheme and
403 for an invalid or expired token; in the `verificarToken` variant the
guard also runs first but every failure, a missing credential included, is
answered with 403. -/
theorem c4_guard_status (now : Nat) (header : Option String) (b : ReqBody)
    (pid : Nat) (s : ServerState) (e : AuthError)
    (hfail : authorize JWT_SECRET now header = Except.error e) :
    handleRequest now header (Request.create b) s =
        ((authStatus e, RespBody.errorMsg (authMessage e)), s) ∧
      handleRequest now header (Request.update pid b) s =
        ((authStatus e, RespBody.errorMsg (authMessage e)), s) ∧
      handleRequest now header (Request.remove pid) s =
        ((authStatus e, RespBody.errorMsg (authMessage e)), s) ∧
      (e = AuthError.MissingCredential ∨ e = AuthError.MalformedScheme →
        authStatus e = 401) ∧
      (∀ v, e = AuthError.tokenError v → authStatus e = 403) ∧
      (∀ (hdr : Option String) (ps : List Product) (r : Resp),
        Legacy.guardResponse (Legacy.verificarToken now hdr) = some r →
        r = (403, RespBody.empty) ∧
          Legacy.crearProducto now hdr b ps = (r, ps) ∧
          Legacy.actualizarProducto now hdr pid b ps = (r, ps) ∧
          Legacy.eliminarProducto now hdr pid ps = (r, ps)) := by
  refine ⟨?_, ?_, ?_, ?_, ?_, ?_⟩
  · simp [handleRequest, hfail]
  · simp [handleRequest, hfail]
  · simp [handleRequest, hfail]
  · rintro (rfl | rfl) <;> rfl
  · rintro v rfl
    rfl
  · intro hdr ps r hr
    have hst : r = (403, RespBody.empty) := by
      cases hg : Legacy.verificarToken now hdr
      · rw [hg] at hr
        exact Option.noConfusion hr
      · rw [hg] at hr
        exact (Option.some.inj hr).symm
      · rw [hg] at hr
        exact (Option.some.inj hr).symm
    subst hst
    refine ⟨rfl, ?_, ?_, ?_⟩ <;>
      simp [Legacy.crearProducto, Legacy.actualizarProducto,
        Legacy.eliminarProducto, hr]

/-- C4 witness: a delete with no credential in the `authenticateToken`
variant is rejected with 401 and the state is unchanged. -/
theorem c4_witness :
    handleRequest 0 none (Request.remove 1) initState =
      ((401, RespBody.errorMsg "No se encontró el header Authorization"),
        initState) :=
  (c4_guard_status 0 none ⟨none, none, none⟩ 1 initState
    AuthError.MissingCredential rfl).2.2.1

/-- C7 counterexample: updating the product stored with name `Zapatillas`
by a body that omits `name` does not keep the stored name — the update
overwrites it with `undefined` (`none`). -/
theorem c7_counterexample :
    (updateProduct 1 ⟨none, some 100, some 5⟩
        ⟨[⟨1, some "Zapatillas", some 79, some 10⟩], 2⟩).2.products =
      [⟨1, none, some 100, some 5⟩] ∧
    ((⟨1, none, some 100, some 5⟩ : Product).name = some "Zapatillas" →
      False) :=
  ⟨rfl, by decide⟩

/-- C7 (amended): update applies wholesale-overwrite semantics — for an
existing product, the response and the stored product take `name`, `price`
and `stock` exactly from the request body, so a field absent from the body
is cleared to `undefined` rather than keeping its previous value; only the
id is preserved (the id list is unchanged). -/
theorem c7_update_overwrites (pid : Nat) (b : ReqBody) (s : ServerState)
    (u : Product) (rest : List Product)
    (hfound : updateFirst pid b s.products = some (u, rest)) :
    updateProduct pid b s =
        ((200, RespBody.product u), ⟨rest, s.nextProductId⟩) ∧
      u.name = b.name ∧ u.price = b.price ∧ u.stock = b.stock ∧
      rest.map Product.id = s.products.map Product.id := by
  obtain ⟨hids, hflds⟩ := updateFirst_eq pid b s.products rest u hfound
  refine ⟨?_, hflds.1, hflds.2.1, hflds.2.2, hids⟩
  simp [updateProduct, hfound]

/-- C7 witness: a full-body update of an existing product, concretely. -/
theorem c7_witness :
    updateProduct 1 ⟨some "tenis", some 300, some 5⟩
        ⟨[⟨1, some "Zapatillas", some 79, some 10⟩], 2⟩ =
      ((200, RespBody.product ⟨1, some "tenis", some 300, some 5⟩),
        ⟨[⟨1, some "tenis", some 300, some 5⟩], 2⟩) :=
  (c7_update_overwrites 1 ⟨some "tenis", some 300, some 5⟩
    ⟨[⟨1, some "Zapatillas", some 79, some 10⟩], 2⟩
    ⟨1, some "tenis", some 300, some 5⟩
    [⟨1, some "tenis", some 300, some 5⟩] rfl).1

/-- C8: the authorization call never changes the shared state (the product
list, the counter, the constant secret). Whatever it answers: on failure
every guarded route returns the state exactly as given, and on success the
route's outcome is exactly the operation applied to the untouched state,
independent of the claim the guard returned. -/
theorem c8_authorize_frame (now : Nat) (header : Option String) (b : ReqBody)
    (pid : Nat) (s : ServerState) :
    (∀ e, authorize JWT_SECRET now header = Except.error e →
      (handleRequest now header (Request.create b) s).2 = s ∧
        (handleRequest now header (Request.update pid b) s).2 = s ∧
        (handleRequest now header (Request.remove pid) s).2 = s) ∧
    (∀ c, authorize JWT_SECRET now header = Except.ok c →
      handleRequest now header (Request.create b) s = createProduct b s ∧
        handleRequest now header (Request.update pid b) s =
          updateProduct pid b s ∧
        handleRequest now header (Request.remove pid) s =
          deleteProduct pid s) := by
  constructor
  · intro e he
    refine ⟨?_, ?_, ?_⟩ <;> simp [handleRequest, he]
  · intro c hc
    refine ⟨?_, ?_, ?_⟩ <;> simp [handleRequest, hc]

/-- C8 witness: a rejected create leaves the startup state untouched. -/
theorem c8_witness :
    (handleRequest 0 none
        (Request.create ⟨some "blusa", some 100, some 15⟩) initState).2 =
      initState :=
  ((c8_authorize_frame 0 none ⟨some "blusa", some 100, some 15⟩ 1
    initState).1 AuthError.MissingCredential rfl).1

/-- C9: in the counter variant, every state reachable from the startup
state by creates, updates and deletes has pairwise-distinct product ids,
all strictly below `nextProductId` — hence no stored id ever equals the id
a successful create would assign, even after deletions. -/
theorem c9_id_invariant (ops : List Op) :
    (idsOf (run ops)).Nodup ∧
      ((run ops).products.all fun p =>
        decide (p.id < (run ops).nextProductId)) = true ∧
      ((run ops).products.all fun p =>
        decide (p.id ≠ (run ops).nextProductId)) = true := by
  obtain ⟨hnd, hbd⟩ := stateInv_run ops
  refine ⟨hnd, ?_, ?_⟩
  · rw [List.all_eq_true]
    intro p hp
    exact decide_eq_true (hbd p hp)
  · rw [List.all_eq_true]
    intro p hp
    exact decide_eq_true (Nat.ne_of_lt (hbd p hp))

end ApiProductosJwt
